import Mathlib

/-!
Verification of the `@tixbit/sdk` client normalization layer.

The development shallowly embeds the normalization and seatmap logic of
`src/client.ts` and `src/cli.ts`:
* JSON values are an inductive type (numbers as rationals, which is exact
  for every value JSON can carry);
* JavaScript property access, truthiness, `??`, `String.prototype.trim`,
  `toUpperCase` (ASCII range) and `Date.toISOString` are modelled
  explicitly;
* code that can throw at runtime (property access on `null`,
  `toISOString` on an out-of-range epoch, `.map` on a non-array) is
  modelled with `Except`.
-/

set_option allowUnsafeReducibility true in
attribute [semireducible] Rat.mul Rat.inv Rat.add Rat.sub Rat.ofScientific

/-- A JSON value.  Numbers are rationals: every numeric literal a JSON
document can carry is a decimal and hence a rational, and the arithmetic
done on them by the code under study is exact on the inputs considered. -/
inductive Json where
  | null
  | bool (b : Bool)
  | num (q : ℚ)
  | str (s : String)
  | arr (xs : List Json)
  | obj (fields : List (String × Json))

/-- First-match lookup in an object's field list (JSON.parse keeps the last
duplicate key; the concrete objects in this development have no duplicate
keys, so first-match lookup agrees with it). -/
def jLookup : List (String × Json) → String → Option Json
  | [], _ => none
  | (k, v) :: rest, key => if k = key then some v else jLookup rest key

/-- Property access `j[key]` on a value already known not to be `null`:
objects look the key up, every other value yields `undefined` (`none`). -/
def Json.get : Json → String → Option Json
  | .obj fs, key => jLookup fs key
  | _, _ => none

/-- JavaScript truthiness of a defined value. -/
def Json.truthy : Json → Bool
  | .null => false
  | .bool b => b
  | .num q => q ≠ 0
  | .str s => s ≠ ""
  | .arr _ => true
  | .obj _ => true

/-- JavaScript truthiness of a possibly-`undefined` value. -/
def jsTruthy : Option Json → Bool
  | none => false
  | some j => j.truthy

/-- `str` from `src/client.ts`: `typeof v === "string" && v.length > 0 ? v : null`. -/
def str : Option Json → Option String
  | some (.str s) => if s = "" then none else some s
  | _ => none

/-- `num` from `src/client.ts`: `typeof v === "number" && Number.isFinite(v) ? v : null`.
JSON cannot carry `NaN`/`Infinity`, so every rational is finite. -/
def num : Option Json → Option ℚ
  | some (.num q) => some q
  | _ => none

-- ── Character classes (ASCII, as matched by the non-Unicode regexes) ───────

/-- `\d` in the source regexes: an ASCII digit. -/
def isDigitCh (c : Char) : Bool := 48 ≤ c.toNat ∧ c.toNat ≤ 57

/-- `[a-z]` under the `i` flag (non-Unicode mode): an ASCII letter. -/
def isAsciiLetterCh (c : Char) : Bool :=
  (65 ≤ c.toNat ∧ c.toNat ≤ 90) ∨ (97 ≤ c.toNat ∧ c.toNat ≤ 122)

/-- `[A-Z0-9]` under the `i` flag: an ASCII letter or digit. -/
def isAlnumCh (c : Char) : Bool := isAsciiLetterCh c || isDigitCh c

/-- `String.prototype.toUpperCase` restricted to the ASCII simple case
mappings (the only characters the studied strings contain). -/
def jsCharUpper (c : Char) : Char :=
  if 97 ≤ c.toNat ∧ c.toNat ≤ 122 then Char.ofNat (c.toNat - 32) else c

def jsToUpper (s : String) : String := String.mk (s.toList.map jsCharUpper)

/-- The WhiteSpace ∪ LineTerminator set trimmed by `String.prototype.trim`. -/
def jsWhitespaceCh (c : Char) : Bool :=
  c.toNat ∈ [9, 10, 11, 12, 13, 32, 160, 5760, 8192, 8193, 8194, 8195,
    8196, 8197, 8198, 8199, 8200, 8201, 8202, 8232, 8233, 8239, 8287,
    12288, 65279]

/-- Strip a trailing run of whitespace. -/
def trimRightL (cs : List Char) : List Char :=
  ((cs.reverse).dropWhile jsWhitespaceCh).reverse

/-- `String.prototype.trim`. -/
def jsTrim (s : String) : String :=
  String.mk (trimRightL (s.toList.dropWhile jsWhitespaceCh))

-- ── Identifier normalizer (src/client.ts, normalizeExternalEventId) ────────

/-- Split a character list at its first `'-'`, when one exists. -/
def breakAtHyphen : List Char → Option (List Char × List Char)
  | [] => none
  | c :: rest =>
    if c = '-' then some ([], rest)
    else match breakAtHyphen rest with
      | some (a, b) => some (c :: a, b)
      | none => none

/-- The anchored match `/^([a-z]{5,})-([A-Z0-9]{6,})$/i`, returning capture
group 2.  Neither character class matches `'-'`, so a successful match
splits the string at its unique hyphen. -/
def providerSuffix (s : String) : Option String :=
  match breakAtHyphen s.toList with
  | some (a, b) =>
    if 5 ≤ a.length ∧ a.all isAsciiLetterCh ∧ 6 ≤ b.length ∧ b.all isAlnumCh
    then some (String.mk b) else none
  | none => none

/-- `normalizeExternalEventId` from `src/client.ts`. -/
def normalizeExternalEventId (eventId : String) : String :=
  if eventId = "" then eventId
  else
    let trimmed := jsTrim eventId
    match providerSuffix trimmed with
    | some suffix => suffix
    | none => trimmed

-- ── Date conversion (new Date(ms).toISOString()) ───────────────────────────

/-- `Math.abs` on an exact rational. -/
def ratAbs (q : ℚ) : ℚ := if q < 0 then -q else q

/-- `ToIntegerOrInfinity` on a finite number: truncation toward zero
(`Int.tdiv` on numerator and denominator rounds toward zero). -/
def truncRat (q : ℚ) : Int := Int.tdiv q.num q.den

/-- Gregorian civil date from a count of days since 1970-01-01
(the standard era-based algorithm used for proleptic Gregorian
conversion).  Returns (year, month, day). -/
def civilFromDays (z : Int) : Int × Nat × Nat :=
  let z1 := z + 719468
  let era := Int.fdiv z1 146097
  let doe := (z1 - era * 146097).toNat
  let yoe := (doe - doe / 1460 + doe / 36524 - doe / 146096) / 365
  let y := (yoe : Int) + era * 400
  let doy := doe - (365 * yoe + yoe / 4 - yoe / 100)
  let mp := (5 * doy + 2) / 153
  let d := doy - (153 * mp + 2) / 5 + 1
  let m := if mp < 10 then mp + 3 else mp - 9
  (if m ≤ 2 then y + 1 else y, m, d)

def padNum (width n : Nat) : String :=
  let s := toString n
  if s.length < width then String.mk (List.replicate (width - s.length) '0') ++ s else s

/-- The year field of `toISOString`: four digits for 0..9999, otherwise
the expanded six-digit form with an explicit sign. -/
def isoYearStr (y : Int) : String :=
  if 0 ≤ y ∧ y ≤ 9999 then padNum 4 y.toNat
  else (if y < 0 then "-" else "+") ++ padNum 6 y.natAbs

/-- `new Date(q).toISOString()`: errors (a thrown `RangeError`) when the
time value is outside the representable range of ±8.64e15 ms, otherwise
formats the truncated millisecond count as a UTC ISO-8601 string. -/
def epochToIso (q : ℚ) : Except Unit String :=
  if 8640000000000000 < ratAbs q then .error ()
  else
    let t := truncRat q
    let day := Int.fdiv t 86400000
    let tod := (t - 86400000 * day).toNat
    let ymd := civilFromDays day
    let h := tod / 3600000
    let mi := tod % 3600000 / 60000
    let se := tod % 60000 / 1000
    let ms := tod % 1000
    .ok (isoYearStr ymd.1 ++ "-" ++ padNum 2 ymd.2.1 ++ "-" ++ padNum 2 ymd.2.2 ++
      "T" ++ padNum 2 h ++ ":" ++ padNum 2 mi ++ ":" ++ padNum 2 se ++ "." ++
      padNum 3 ms ++ "Z")

-- ── JavaScript string conversion (template-literal interpolation) ──────────

/-- Decimal rendering of a rational with a terminating expansion; the
values interpolated by the studied code are integers, where this agrees
exactly with JavaScript number-to-string conversion. -/
def jsNumToString (q : ℚ) : String :=
  let sign := if q < 0 then "-" else ""
  let n := q.num.natAbs
  let d := q.den
  let ip := n / d
  let rem := n % d
  if rem = 0 then sign ++ toString ip
  else
    let scaled := rem * 100000000000000000000 / d
    let digits := (padNum 20 scaled).toList.reverse.dropWhile (· = '0') |>.reverse
    sign ++ toString ip ++ "." ++ String.mk digits

mutual
/-- JavaScript `ToString` of a defined value, as invoked by a template
literal. -/
def jsToString : Json → String
  | .null => "null"
  | .bool b => if b then "true" else "false"
  | .num q => jsNumToString q
  | .str s => s
  | .arr xs => jsArrToString xs
  | .obj _ => "[object Object]"
termination_by structural j => j

/-- `Array.prototype.toString`: elements joined by commas, with `null`
holes rendered as empty strings (the element rendering is inlined into
the join). -/
def jsArrToString : List Json → String
  | [] => ""
  | [.null] => ""
  | [x] => jsToString x
  | .null :: rest => "," ++ jsArrToString rest
  | x :: rest => jsToString x ++ "," ++ jsArrToString rest
termination_by structural l => l
end

-- ── Date resolution (src/client.ts, resolveDate) ───────────────────────────

/-- The `date_ms` fallback at the end of `resolveDate`. -/
def resolveDateMs (e : Json) : Except Unit String :=
  match e.get "date_ms" with
  | some (.num q) => epochToIso q
  | _ => .ok ""

/-- `resolveDate` from `src/client.ts`.  `typeof e.date === "object"` holds
for objects, arrays and `null`; the `e.date &&` guard rules `null` out.
Rendering `"<month> <day>, <year>"` requires all three fields to be
truthy, and interpolates them with JavaScript string conversion. -/
def resolveDate (e : Json) : Except Unit String :=
  match e.get "date" with
  | some (.str s) => .ok s
  | some (.num q) => epochToIso q
  | some (.obj fs) =>
    if jsTruthy (jLookup fs "month") ∧ jsTruthy (jLookup fs "day") ∧
        jsTruthy (jLookup fs "year") then
      .ok (jsToString ((jLookup fs "month").getD .null) ++ " " ++
        jsToString ((jLookup fs "day").getD .null) ++ ", " ++
        jsToString ((jLookup fs "year").getD .null))
    else resolveDateMs e
  | _ => resolveDateMs e

-- ── Event normalizer (src/client.ts) ───────────────────────────────────────

structure Inventory where
  total_available : ℚ
  min_price : ℚ
  max_price : ℚ
deriving DecidableEq, Repr

structure TixBitEvent where
  id : String
  external_event_id : String
  slug : String
  name : String
  date : String
  venue_name : Option String
  venue_city : Option String
  venue_state : Option String
  image_url : Option String
  category_name : Option String
  category_event_type : Option String
  has_listings : Bool
  inventory : Inventory
deriving DecidableEq, Repr

/-- `normalizeInventory` from `src/client.ts`: the guard
`!raw || typeof raw !== "object"` admits only truthy objects (including
arrays, which carry none of the looked-up properties). -/
def normalizeInventory (v : Option Json) : Inventory :=
  match v with
  | some (.obj fs) =>
    { total_available := (num (jLookup fs "total_available")).getD 0
      min_price := (num (jLookup fs "min_price")).getD 0
      max_price := (num (jLookup fs "max_price")).getD 0 }
  | _ => { total_available := 0, min_price := 0, max_price := 0 }

/-- `normalizeEvent` from `src/client.ts`.  Property access on `null`
throws a `TypeError` (modelled as `.error`); `resolveDate` may throw a
`RangeError` on an out-of-range numeric epoch. -/
def normalizeEvent (raw : Json) : Except Unit TixBitEvent :=
  match raw with
  | .null => .error ()
  | e =>
    let rawId := ((str (e.get "external_event_id")).orElse fun _ =>
      (str (e.get "externalEventId")).orElse fun _ =>
        str (e.get "id")).getD ""
    let externalEventId := normalizeExternalEventId rawId
    (resolveDate e).map fun date =>
      { id := externalEventId
        external_event_id := externalEventId
        slug := (str (e.get "slug")).getD externalEventId
        name := ((str (e.get "name")).orElse fun _ => str (e.get "performer")).getD ""
        date := date
        venue_name := (str (e.get "venue_name")).orElse fun _ => str (e.get "venueName")
        venue_city := (str (e.get "venue_city")).orElse fun _ => str (e.get "venueCity")
        venue_state := (str (e.get "venue_state")).orElse fun _ => str (e.get "venueState")
        image_url := (str (e.get "image_url")).orElse fun _ => str (e.get "imageUrl")
        category_name := (str (e.get "category_name")).orElse fun _ =>
          str (e.get "categoryName")
        category_event_type := (str (e.get "category_event_type")).orElse fun _ =>
          str (e.get "categoryEventType")
        has_listings := jsTruthy (e.get "has_listings")
        inventory := normalizeInventory (e.get "inventory") }

-- ── Listing normalizer (src/client.ts) ─────────────────────────────────────

structure TixBitListing where
  id : String
  price : ℚ
  quantity : ℚ
  quantities_list : List Json
  «section» : Option String
  row : Option String
  seat_numbers : Option String
  listing_hash : String
  notes : Option String
  delivery_method : Option String
  splits : List Json
  raw : Json

/-- `normalizeListing` from `src/client.ts`.  `outer.attributes ?? outer`
falls back to the outer record when `attributes` is `null`/`undefined`;
`id` is probed at both levels; array-typed fields pass through verbatim
when array-shaped and default to `[]` otherwise.  Property access on a
`null` input throws. -/
def normalizeListing (raw : Json) : Except Unit TixBitListing :=
  match raw with
  | .null => .error ()
  | outer =>
    let attrs : Json :=
      match outer.get "attributes" with
      | none => outer
      | some .null => outer
      | some a => a
    .ok
      { id := ((str (outer.get "id")).orElse fun _ => str (attrs.get "id")).getD ""
        price := ((num (attrs.get "price_per_ticket")).orElse fun _ =>
          num (attrs.get "price")).getD 0
        quantity := ((num (attrs.get "quantity")).orElse fun _ =>
          num (attrs.get "available_quantity")).getD 0
        quantities_list :=
          match attrs.get "quantities_list" with
          | some (.arr xs) => xs
          | _ => []
        «section» := str (attrs.get "section")
        row := str (attrs.get "row")
        seat_numbers := str (attrs.get "seat_numbers")
        listing_hash := (str (attrs.get "listing_hash")).getD ""
        notes := str (attrs.get "notes")
        delivery_method := (str (attrs.get "delivery_method")).orElse fun _ =>
          str (attrs.get "delivery_type")
        splits :=
          match attrs.get "splits" with
          | some (.arr xs) => xs
          | _ => []
        raw := outer }

-- ── Seatmap coordinate parsing (src/client.ts, fetchAndParseCoordinates) ───

/-- One parsed label: the filter guarantees `text` is a string; `x`/`y`
default to 0 when not numbers; `size`/`angle` stay absent when not
numbers. -/
structure SeatmapLabel where
  text : String
  x : ℚ
  y : ℚ
  size : Option ℚ
  angle : Option ℚ

/-- One parsed section.  `id`/`name` pass through from the upstream JSON
unchecked (the declared TypeScript type says `string`, the runtime value
is whatever the document held). -/
structure SeatmapSectionJ where
  id : Option Json
  name : Option Json
  x : ℚ
  y : ℚ
  labels : List SeatmapLabel
  shape_path : Option String

structure SeatmapZoneJ where
  id : Option Json
  name : Option Json
  sections : List SeatmapSectionJ

/-- The label-candidate collection:
`section.labels.filter(l => l && typeof l.text === "string").map(...)`
when `labels` is an array, `[]` otherwise. -/
def parseLabels (v : Option Json) : List SeatmapLabel :=
  match v with
  | some (.arr ls) =>
    (ls.filter fun l => l.truthy && (match l.get "text" with
      | some (.str _) => true
      | _ => false)).map fun l =>
      { text := match l.get "text" with
          | some (.str t) => t
          | _ => ""
        x := (num (l.get "x")).getD 0
        y := (num (l.get "y")).getD 0
        size := num (l.get "size")
        angle := num (l.get "angle") }
  | _ => []

/-- `section.shape && typeof section.shape.path === "string" ?
section.shape.path : null`. -/
def parseShapePath (v : Option Json) : Option String :=
  match v with
  | some sh =>
    if sh.truthy then
      match sh.get "path" with
      | some (.str p) => some p
      | _ => none
    else none
  | none => none

/-- The per-section mapping body inside `fetchAndParseCoordinates`.
When at least one label candidate exists, the `find` predicate evaluates
`section.name.toUpperCase()`, which throws unless `name` is a string;
property access on a `null` section element throws as well. -/
def parseSection (s : Json) : Except Unit SeatmapSectionJ :=
  match s with
  | .null => .error ()
  | s =>
    let shapePath : Option String := parseShapePath (s.get "shape")
    match parseLabels (s.get "labels"), s.get "name" with
    | [], _ => .ok ⟨s.get "id", s.get "name", 0, 0, [], shapePath⟩
    | l0 :: rest, some (.str nm) =>
      let primary :=
        ((l0 :: rest).find? fun l => jsToUpper l.text = jsToUpper nm).getD l0
      .ok ⟨s.get "id", some (.str nm), primary.x, primary.y, l0 :: rest,
        shapePath⟩
    | _ :: _, _ => .error ()

/-- Effectful list map: the JavaScript `.map` callback propagates the
first thrown error. -/
def mapE (f : Json → Except Unit α) : List Json → Except Unit (List α)
  | [] => .ok []
  | x :: xs => do
    let a ← f x
    let as ← mapE f xs
    .ok (a :: as)

/-- The per-zone mapping body: `(zone.sections ?? []).map(...)`; calling
`.map` on a defined non-nullish non-array value throws, and property
access on a `null` zone element throws. -/
def parseZone (z : Json) : Except Unit SeatmapZoneJ :=
  match z with
  | .null => .error ()
  | z =>
    match z.get "sections" with
    | none => .ok ⟨z.get "id", z.get "name", []⟩
    | some .null => .ok ⟨z.get "id", z.get "name", []⟩
    | some (.arr ss) => (mapE parseSection ss).map fun secs =>
        ⟨z.get "id", z.get "name", secs⟩
    | some _ => .error ()

/-- The body parse of `fetchAndParseCoordinates`: `if (!coords.zones)
return []`, then map each zone.  Accessing `.zones` on a `null` body
throws; `.map` on a truthy non-array `zones` throws. -/
def parseCoordinates (body : Json) : Except Unit (List SeatmapZoneJ) :=
  match body with
  | .null => .error ()
  | j =>
    match j.get "zones" with
    | some (.arr zs) => mapE parseZone zs
    | some v => if v.truthy then .error () else .ok []
    | none => .ok []

/-- Outcome of the secondary coordinates HTTP exchange, as seen by
`fetchAndParseCoordinates`: the fetch can throw (network failure /
timeout abort), the response status can be non-ok, `res.json()` can
throw on a malformed body, or a JSON body is obtained. -/
inductive FetchOutcome where
  | netError
  | httpError
  | jsonError
  | body (j : Json)

/-- `fetchAndParseCoordinates` from `src/client.ts` over a fetch
outcome: a thrown fetch or JSON-parse error propagates, a non-ok status
returns `[]`, and a parsed body goes through the zone parse. -/
def fetchAndParseCoordinates : FetchOutcome → Except Unit (List SeatmapZoneJ)
  | .netError => .error ()
  | .httpError => .ok []
  | .jsonError => .error ()
  | .body j => parseCoordinates j

-- ── Seatmap façade (src/client.ts, getSeatmap) ─────────────────────────────

/-- `toAbsoluteUrl` from `src/client.ts`: falsy values (absent or empty
string) become `null`, absolute URLs pass through, relative paths are
resolved against the base URL. -/
def toAbsoluteUrl (baseUrl : String) (value : Option String) : Option String :=
  match value with
  | none => none
  | some v =>
    if v = "" then none
    else if v.startsWith "http://" || v.startsWith "https://" then some v
    else some (baseUrl ++ (if v.startsWith "/" then "" else "/") ++ v)

structure SeatmapVenue where
  name : String
  address : Option String
  city : String
  region : String
  country : String
  time_zone : String
deriving DecidableEq, Repr

/-- The primary `/seating-chart` response, with the fields the façade
reads, typed as the TypeScript interface declares them. -/
structure PrimarySeatmapData where
  success : Bool
  event_id : String
  venue_id : String
  venue_name : String
  configuration_id : String
  configuration_name : String
  background_image : Option String
  coordinates : Option String
  coordinates_url : Option String
  has_coordinates : Bool
  capacity : Option ℚ
  venue_data : SeatmapVenue

structure SeatmapResult where
  success : Bool
  event_id : String
  venue_id : String
  venue_name : String
  configuration_id : String
  configuration_name : String
  background_image : Option String
  coordinates_url : Option String
  has_coordinates : Bool
  capacity : Option ℚ
  venue : SeatmapVenue
  zones : List SeatmapZoneJ
  section_names : List (Option Json)

/-- `getSeatmap` from `src/client.ts`, after the primary request has
produced `data` and with the secondary coordinates exchange abstracted
as a `FetchOutcome`.  The secondary fetch is attempted only when
`has_coordinates` holds and a truthy coordinates URL exists; any error
it throws is swallowed, leaving `zones` and `section_names` empty. -/
def getSeatmap (baseUrl : String) (data : PrimarySeatmapData)
    (outcome : FetchOutcome) : SeatmapResult :=
  let coordinatesUrl : Option String :=
    match data.coordinates_url with
    | some u => some u
    | none => data.coordinates
  let attempted := data.has_coordinates &&
    (match coordinatesUrl with
     | some u => u ≠ ""
     | none => false)
  let parsed : List SeatmapZoneJ × List (Option Json) :=
    if attempted then
      match fetchAndParseCoordinates outcome with
      | .ok zs => (zs, (zs.map fun z => z.sections.map fun s => s.name).flatten)
      | .error _ => ([], [])
    else ([], [])
  { success := data.success
    event_id := normalizeExternalEventId data.event_id
    venue_id := data.venue_id
    venue_name := data.venue_name
    configuration_id := data.configuration_id
    configuration_name := data.configuration_name
    background_image := toAbsoluteUrl baseUrl data.background_image
    coordinates_url := toAbsoluteUrl baseUrl coordinatesUrl
    has_coordinates := data.has_coordinates
    capacity := data.capacity
    venue := data.venue_data
    zones := parsed.1
    section_names := parsed.2 }

-- ── CLI seatmap helpers (src/cli.ts) ───────────────────────────────────────

/-- A section as consumed by the CLI helpers (`SeatmapSection` from
`src/types.ts`): name and representative label coordinates. -/
structure SeatmapSection where
  id : String
  name : String
  x : ℚ
  y : ℚ
deriving DecidableEq, Repr

/-- `/^FLOOR\d/` -/
def reFloorDigit (s : String) : Bool :=
  match s.toList with
  | c0 :: c1 :: c2 :: c3 :: c4 :: c5 :: _ =>
    c0 = 'F' && c1 = 'L' && c2 = 'O' && c3 = 'O' && c4 = 'R' && isDigitCh c5
  | _ => false

/-- `/^FLR\d/` -/
def reFlrDigit (s : String) : Bool :=
  match s.toList with
  | c0 :: c1 :: c2 :: c3 :: _ =>
    c0 = 'F' && c1 = 'L' && c2 = 'R' && isDigitCh c3
  | _ => false

/-- `/^1\d{2}/`, `/^2\d{2}/`, `/^3\d{2}/`, `/^4\d{2}/` -/
def reHundreds (lead : Char) (s : String) : Bool :=
  match s.toList with
  | c0 :: c1 :: c2 :: _ => c0 = lead && isDigitCh c1 && isDigitCh c2
  | _ => false

/-- `/^\d{1,2}$/` — the whole name is one or two digits. -/
def reSmallNumber (s : String) : Bool :=
  match s.toList with
  | [c] => isDigitCh c
  | [c, c'] => isDigitCh c && isDigitCh c'
  | _ => false

/-- `/^L\d/` and friends. -/
def reLetterDigit (lead : Char) (s : String) : Bool :=
  match s.toList with
  | c0 :: c1 :: _ => c0 = lead && isDigitCh c1
  | _ => false

def listHasPrefix : List Char → List Char → Bool
  | [], _ => true
  | _ :: _, [] => false
  | a :: as, b :: bs => a = b && listHasPrefix as bs

/-- `String.prototype.includes` (naive substring containment). -/
def containsSub (needle : List Char) : List Char → Bool
  | [] => listHasPrefix needle []
  | c :: rest => listHasPrefix needle (c :: rest) || containsSub needle rest

/-- The group label the `categorizeSections` rule chain assigns to an
(uppercased) section name, given the two venue-wide flags. -/
def sectionGroupName (hasLowerLevel hasSmallNumbers : Bool)
    (rawName : String) : String :=
  let name := jsToUpper rawName
  if reFloorDigit name || reFlrDigit name then "🏀 Floor"
  else if reHundreds '1' name then "⬇ Lower Level (100s)"
  else if reHundreds '2' name then "⬆ Upper Level (200s)"
  else if reHundreds '3' name then "🔵 300 Level"
  else if reHundreds '4' name then "🟣 400 Level"
  else if reSmallNumber name && hasSmallNumbers then
    (if hasLowerLevel then "🏟  Field Level" else "⬇ Lower Level")
  else if reLetterDigit 'L' name then "🪵 Loge"
  else if reLetterDigit 'S' name then "☁ Sky"
  else if reLetterDigit 'T' name then "🌇 Terrace"
  else if reLetterDigit 'V' name then "👀 Vista"
  else if listHasPrefix ['S', 'T', 'E'] name.toList then "🏢 Suites"
  else if containsSub "SUITE".toList name.toList ||
      containsSub "SUITES".toList name.toList then "🏢 Suites"
  else if containsSub "STANDING".toList name.toList || name = "SRO" ||
      name = "UPPER" then "🧍 Standing Room"
  else if name = "DECK" || name = "ROOF" || name = "GA" || name = "HAT" then
    "🎪 General / Special"
  else "📍 Other"

/-- `addToGroup` from `src/cli.ts`: groups are a string-keyed record in
insertion order; a section is appended to its group's list, creating the
group at the end on first use. -/
def addToGroup (groups : List (String × List SeatmapSection))
    (groupName : String) (s : SeatmapSection) :
    List (String × List SeatmapSection) :=
  match groups with
  | [] => [(groupName, [s])]
  | (k, ss) :: rest =>
    if k = groupName then (k, ss ++ [s]) :: rest
    else (k, ss) :: addToGroup rest groupName s

/-- `categorizeSections` from `src/cli.ts`.  The two venue-wide flags
test the RAW section names; the rule chain tests the uppercased name. -/
def categorizeSections (sections : List SeatmapSection) :
    List (String × List SeatmapSection) :=
  let hasLowerLevel := sections.any fun s => reHundreds '1' s.name
  let hasSmallNumbers := sections.any fun s => reSmallNumber s.name
  sections.foldl
    (fun gs s => addToGroup gs (sectionGroupName hasLowerLevel hasSmallNumbers s.name) s)
    []

/-- `describePosition` from `src/cli.ts`. -/
def describePosition (s : SeatmapSection) (allSections : List SeatmapSection) :
    String :=
  if allSections.length = 0 then "position unknown"
  else
    let centerX := (allSections.foldl (fun sum t => sum + t.x) (0 : ℚ)) / (allSections.length : ℚ)
    let centerY := (allSections.foldl (fun sum t => sum + t.y) (0 : ℚ)) / (allSections.length : ℚ)
    let dx := s.x - centerX
    let dy := s.y - centerY
    let horizontal :=
      if ratAbs dx < 50 then "center" else if dx < 0 then "left side" else "right side"
    let vertical :=
      if ratAbs dy < 50 then "center"
      else if dy < 0 then "near side (closer to stage/court)" else "far side"
    if horizontal = "center" ∧ vertical = "center" then "center of venue"
    else String.intercalate ", " ([vertical, horizontal].filter (· ≠ "center"))

-- ── Concrete fixtures ──────────────────────────────────────────────────────

/-- A primary seating-chart response mirroring the repository's test
fixture. -/
def sampleSeatmapData : PrimarySeatmapData :=
  { success := true
    event_id := "provider-36PB9ZN"
    venue_id := "2D2ZBN6G"
    venue_name := "State Farm Arena"
    configuration_id := "VGJBV"
    configuration_name := "NBA - Atlanta Hawks"
    background_image := some "/api/seatmap/assets?url=bg"
    coordinates := none
    coordinates_url := some "/api/seatmap/assets?url=coords"
    has_coordinates := true
    capacity := some 18118
    venue_data := ⟨"State Farm Arena", some "1 Philips Dr Nw", "Atlanta", "GA",
      "US", "America/New_York"⟩ }

-- ── Theorems: C4 ───────────────────────────────────────────────────────────

/-- C4: whenever the secondary coordinates fetch fails (network error,
thrown parse error, or non-success HTTP status), `getSeatmap` still
returns a result in which `zones` and `section_names` are empty and
`has_coordinates` equals the primary response's flag unchanged. -/
theorem getSeatmap_degrades_on_coordinate_fetch_failure
    (base : String) (data : PrimarySeatmapData) (o : FetchOutcome)
    (h : o = .netError ∨ o = .httpError ∨ o = .jsonError) :
    (getSeatmap base data o).zones = [] ∧
      (getSeatmap base data o).section_names = [] ∧
      (getSeatmap base data o).has_coordinates = data.has_coordinates := by
  rcases h with rfl | rfl | rfl <;>
    refine ⟨?_, ?_, rfl⟩ <;> simp [getSeatmap, fetchAndParseCoordinates]

/-- C4 witness: a failing status on the secondary fetch of the sample
seatmap leaves the sections empty and the flag intact. -/
theorem getSeatmap_degrades_on_coordinate_fetch_failure_witness :
    (getSeatmap "https://tixbit.com" sampleSeatmapData .httpError).zones = [] ∧
      (getSeatmap "https://tixbit.com" sampleSeatmapData .httpError).section_names = [] ∧
      (getSeatmap "https://tixbit.com" sampleSeatmapData .httpError).has_coordinates =
        sampleSeatmapData.has_coordinates :=
  getSeatmap_degrades_on_coordinate_fetch_failure "https://tixbit.com"
    sampleSeatmapData .httpError (Or.inr (Or.inl rfl))

-- ── Group bookkeeping lemmas (for the classifier) ─────────────────────────

/-- All sections stored in a group record, in group order. -/
def groupsFlatten (gs : List (String × List SeatmapSection)) :
    List SeatmapSection :=
  gs.foldr (fun g acc => g.2 ++ acc) []

/-- The member list of a group (groups built by `addToGroup` have unique
keys). -/
def groupMembers (gs : List (String × List SeatmapSection)) (g : String) :
    List SeatmapSection :=
  match gs with
  | [] => []
  | (k, ss) :: rest => if k = g then ss else groupMembers rest g

theorem groupsFlatten_nil : groupsFlatten [] = [] := rfl

theorem groupsFlatten_cons (p : String × List SeatmapSection)
    (rest : List (String × List SeatmapSection)) :
    groupsFlatten (p :: rest) = p.2 ++ groupsFlatten rest := rfl

theorem groupsFlatten_addToGroup (gs : List (String × List SeatmapSection))
    (g : String) (s : SeatmapSection) :
    (groupsFlatten (addToGroup gs g s)).Perm (groupsFlatten gs ++ [s]) := by
  induction gs with
  | nil => simp [addToGroup, groupsFlatten]
  | cons p rest ih =>
    obtain ⟨k, ss⟩ := p
    by_cases hk : k = g
    · subst hk
      simp only [addToGroup, if_pos rfl, groupsFlatten_cons]
      have h := List.Perm.append_left ss
        (@List.perm_append_comm _ [s] (groupsFlatten rest))
      simpa [groupsFlatten_cons] using h
    · simp only [addToGroup, if_neg hk, groupsFlatten_cons]
      have h := List.Perm.append_left ss ih
      simpa using h

theorem groupsFlatten_foldl (f : SeatmapSection → String)
    (ss : List SeatmapSection) (gs : List (String × List SeatmapSection)) :
    (groupsFlatten (ss.foldl (fun acc s => addToGroup acc (f s) s) gs)).Perm
      (groupsFlatten gs ++ ss) := by
  induction ss generalizing gs with
  | nil => simp
  | cons s rest ih =>
    simp only [List.foldl_cons]
    have h1 := ih (addToGroup gs (f s) s)
    have h2 : (groupsFlatten (addToGroup gs (f s) s) ++ rest).Perm
        ((groupsFlatten gs ++ [s]) ++ rest) :=
      List.Perm.append_right rest (groupsFlatten_addToGroup gs (f s) s)
    have h3 : (groupsFlatten gs ++ [s]) ++ rest =
        groupsFlatten gs ++ (s :: rest) := by simp
    rw [h3] at h2
    exact h1.trans h2

-- ── Theorems: C7 ───────────────────────────────────────────────────────────

/-- C7: the classifier places FLOOR1, 101, 204, L3, SUITE5, XYZ into the
Floor, Lower Level (100s), Upper Level (200s), Loge, Suites, and Other
display groups (the code prefixes each label with a decorative emoji),
and on every input list each section lands in exactly one group: the
groups' members, taken together, are a permutation of the input. -/
theorem categorizeSections_example_and_partition :
    categorizeSections [⟨"1", "FLOOR1", 0, 0⟩, ⟨"2", "101", 0, 0⟩,
        ⟨"3", "204", 0, 0⟩, ⟨"4", "L3", 0, 0⟩, ⟨"5", "SUITE5", 0, 0⟩,
        ⟨"6", "XYZ", 0, 0⟩] =
      [("🏀 Floor", [⟨"1", "FLOOR1", 0, 0⟩]),
       ("⬇ Lower Level (100s)", [⟨"2", "101", 0, 0⟩]),
       ("⬆ Upper Level (200s)", [⟨"3", "204", 0, 0⟩]),
       ("🪵 Loge", [⟨"4", "L3", 0, 0⟩]),
       ("🏢 Suites", [⟨"5", "SUITE5", 0, 0⟩]),
       ("📍 Other", [⟨"6", "XYZ", 0, 0⟩])] ∧
    ∀ ss : List SeatmapSection,
      (groupsFlatten (categorizeSections ss)).Perm ss := by
  constructor
  · decide
  · intro ss
    simpa [categorizeSections, groupsFlatten] using
      groupsFlatten_foldl
        (fun s => sectionGroupName (ss.any fun t => reHundreds '1' t.name)
          (ss.any fun t => reSmallNumber t.name) s.name) ss []

theorem jsCharUpper_digit (c : Char) (h : isDigitCh c = true) :
    jsCharUpper c = c := by
  simp only [isDigitCh, decide_eq_true_eq] at h
  unfold jsCharUpper
  rw [if_neg]
  omega

theorem sectionGroupName_smallNumber (hl : Bool) (s : String)
    (h : reSmallNumber s = true) :
    sectionGroupName hl true s =
      if hl then "🏟  Field Level" else "⬇ Lower Level" := by
  obtain ⟨cs⟩ := s
  unfold reSmallNumber at h
  simp only [String.toList] at h
  have hdig : ∀ d e : Char, isDigitCh d = true → isDigitCh e = false →
      (d = e) = False := by
    intro d e hd he
    simp only [eq_iff_iff, iff_false]
    intro hEq
    subst hEq
    rw [hd] at he
    simp at he
  match cs, h with
  | [c], h =>
    have hc : isDigitCh c = true := h
    have hup : jsToUpper (String.mk [c]) = String.mk [c] := by
      simp [jsToUpper, jsCharUpper_digit c hc]
    have hne : ∀ t : String, t.data.length ≠ 1 → (String.mk [c] = t) = False := by
      intro t ht
      simp only [eq_iff_iff, iff_false]
      intro hEq
      apply ht
      rw [← hEq]
      rfl
    have h1 : (String.mk [c] = "SRO") = False := hne _ (by decide)
    have h2 : (String.mk [c] = "UPPER") = False := hne _ (by decide)
    have h3 : (String.mk [c] = "DECK") = False := hne _ (by decide)
    have h4 : (String.mk [c] = "ROOF") = False := hne _ (by decide)
    have h5 : (String.mk [c] = "GA") = False := hne _ (by decide)
    have h6 : (String.mk [c] = "HAT") = False := hne _ (by decide)
    simp [sectionGroupName, hup, reFloorDigit, reFlrDigit, reHundreds,
      reSmallNumber, reLetterDigit, listHasPrefix, containsSub, hc,
      h1, h2, h3, h4, h5, h6]
  | [c, c'], h =>
    have hc : isDigitCh c = true := by
      cases hcc : isDigitCh c <;> simp [hcc] at h ⊢
    have hc' : isDigitCh c' = true := by
      cases hcc : isDigitCh c' <;> cases hd : isDigitCh c <;>
        simp [hcc, hd] at h ⊢
    have hup : jsToUpper (String.mk [c, c']) = String.mk [c, c'] := by
      simp [jsToUpper, jsCharUpper_digit c hc, jsCharUpper_digit c' hc']
    have hne : ∀ t : String, t.data.length ≠ 2 → (String.mk [c, c'] = t) = False := by
      intro t ht
      simp only [eq_iff_iff, iff_false]
      intro hEq
      apply ht
      rw [← hEq]
      rfl
    have h1 : (String.mk [c, c'] = "SRO") = False := hne _ (by decide)
    have h2 : (String.mk [c, c'] = "UPPER") = False := hne _ (by decide)
    have h3 : (String.mk [c, c'] = "DECK") = False := hne _ (by decide)
    have h4 : (String.mk [c, c'] = "ROOF") = False := hne _ (by decide)
    have h6 : (String.mk [c, c'] = "HAT") = False := hne _ (by decide)
    have h5 : (String.mk [c, c'] = "GA") = False := by
      simp only [eq_iff_iff, iff_false]
      intro hEq
      have hd : [c, c'] = ['G', 'A'] := congrArg String.data hEq
      simp only [List.cons.injEq, and_true] at hd
      obtain ⟨hg, -⟩ := hd
      subst hg
      exact absurd hc (by decide)
    have hL := hdig c 'L' hc (by decide)
    have hS := hdig c 'S' hc (by decide)
    have hT := hdig c 'T' hc (by decide)
    have hV := hdig c 'V' hc (by decide)
    simp [sectionGroupName, hup, reFloorDigit, reFlrDigit, reHundreds,
      reSmallNumber, reLetterDigit, listHasPrefix, containsSub, hc, hc',
      h1, h2, h3, h4, h5, h6, hL, hS, hT, hV]

theorem groupMembers_addToGroup_self (gs : List (String × List SeatmapSection))
    (g : String) (s : SeatmapSection) :
    groupMembers (addToGroup gs g s) g = groupMembers gs g ++ [s] := by
  induction gs with
  | nil => simp [addToGroup, groupMembers]
  | cons p rest ih =>
    obtain ⟨k, ss⟩ := p
    by_cases hk : k = g
    · subst hk
      simp [addToGroup, groupMembers]
    · simp [addToGroup, groupMembers, hk, ih]

theorem groupMembers_addToGroup_other (gs : List (String × List SeatmapSection))
    (g g' : String) (s : SeatmapSection) (h : g' ≠ g) :
    groupMembers (addToGroup gs g s) g' = groupMembers gs g' := by
  induction gs with
  | nil => simp [addToGroup, groupMembers, Ne.symm h]
  | cons p rest ih =>
    obtain ⟨k, ss⟩ := p
    by_cases hk : k = g
    · subst hk
      simp [addToGroup, groupMembers, Ne.symm h]
    · simp [addToGroup, groupMembers, hk, ih]

theorem mem_groupMembers_addToGroup (gs : List (String × List SeatmapSection))
    (g g' : String) (s t : SeatmapSection) (h : t ∈ groupMembers gs g') :
    t ∈ groupMembers (addToGroup gs g s) g' := by
  by_cases hg : g' = g
  · subst hg
    rw [groupMembers_addToGroup_self]
    exact List.mem_append_left _ h
  · rw [groupMembers_addToGroup_other gs g g' s hg]
    exact h

theorem mem_groupMembers_foldl (f : SeatmapSection → String)
    (ss : List SeatmapSection) (gs : List (String × List SeatmapSection))
    (t : SeatmapSection) (g : String) (h : t ∈ groupMembers gs g) :
    t ∈ groupMembers (ss.foldl (fun acc s => addToGroup acc (f s) s) gs) g := by
  induction ss generalizing gs with
  | nil => exact h
  | cons s rest ih =>
    simp only [List.foldl_cons]
    exact ih _ (mem_groupMembers_addToGroup _ _ _ _ _ h)

theorem mem_groupMembers_categorize (f : SeatmapSection → String)
    (ss : List SeatmapSection) (gs : List (String × List SeatmapSection))
    (t : SeatmapSection) (h : t ∈ ss) :
    t ∈ groupMembers (ss.foldl (fun acc s => addToGroup acc (f s) s) gs) (f t) := by
  induction ss generalizing gs with
  | nil => cases h
  | cons s rest ih =>
    simp only [List.foldl_cons]
    rcases List.mem_cons.mp h with rfl | hmem
    · apply mem_groupMembers_foldl
      rw [groupMembers_addToGroup_self]
      exact List.mem_append_right _ (by simp)
    · exact ih _ hmem

-- ── Theorems: C8 ───────────────────────────────────────────────────────────

/-- C8 counterexample: the claim demands that a 1–2 bare-digit section is
grouped as Field Level / Lower Level only when at least one OTHER
1–2-bare-digit section exists in the input.  The code's venue-wide
`some()` scan is satisfied by the section itself, so a lone section
named "7" is grouped as Lower Level with no other small-numbered section
present, refuting the claim. -/
theorem smallNumber_requires_other_counterexample :
    ¬ (∀ (ss : List SeatmapSection) (s : SeatmapSection), s ∈ ss →
        reSmallNumber s.name = true →
        (s ∈ groupMembers (categorizeSections ss) "🏟  Field Level" ∨
         s ∈ groupMembers (categorizeSections ss) "⬇ Lower Level") →
        ∃ t ∈ ss, t ≠ s ∧ reSmallNumber t.name = true) := by
  intro hclaim
  obtain ⟨t, htmem, htne, -⟩ := hclaim [⟨"7", "7", 0, 0⟩] ⟨"7", "7", 0, 0⟩
    (by simp) (by decide) (Or.inr (by decide))
  simp only [List.mem_singleton] at htmem
  exact htne htmem

/-- C8 (amended): a section whose name is 1–2 bare digits always
satisfies the venue-wide small-number scan (the scan includes the
section itself), so it is always grouped as "Field Level" when the input
also contains a 100s-pattern section and as "Lower Level" otherwise. -/
theorem smallNumber_section_grouping (ss : List SeatmapSection)
    (s : SeatmapSection) (hmem : s ∈ ss)
    (hsmall : reSmallNumber s.name = true) :
    s ∈ groupMembers (categorizeSections ss)
      (if ss.any (fun t => reHundreds '1' t.name) then "🏟  Field Level"
       else "⬇ Lower Level") := by
  have hsm : (ss.any fun t => reSmallNumber t.name) = true :=
    List.any_eq_true.mpr ⟨s, hmem, hsmall⟩
  have hgroup := sectionGroupName_smallNumber
    (ss.any fun t => reHundreds '1' t.name) s.name hsmall
  have h2 := mem_groupMembers_categorize
    (fun t => sectionGroupName (ss.any fun u => reHundreds '1' u.name)
      (ss.any fun u => reSmallNumber u.name) t.name) ss [] s hmem
  simp only [hsm] at h2
  rw [hgroup] at h2
  simp only [categorizeSections]
  rw [hsm]
  exact h2

/-- C8 witness: the lone section "7" is grouped as Lower Level. -/
theorem smallNumber_section_grouping_witness :
    (⟨"7", "7", 0, 0⟩ : SeatmapSection) ∈
      groupMembers (categorizeSections [⟨"7", "7", 0, 0⟩])
        (if List.any [(⟨"7", "7", 0, 0⟩ : SeatmapSection)]
            (fun t => reHundreds '1' t.name) then "🏟  Field Level"
         else "⬇ Lower Level") :=
  smallNumber_section_grouping [⟨"7", "7", 0, 0⟩] ⟨"7", "7", 0, 0⟩
    (by simp) (by decide)

-- ── Theorems: C9 ───────────────────────────────────────────────────────────

/-- The relative-position rule as the claim words it. -/
def describePositionClaimed (s : SeatmapSection)
    (allSections : List SeatmapSection) : String :=
  if allSections.length = 0 then "position unknown"
  else
    let centerX := (allSections.foldl (fun sum t => sum + t.x) (0 : ℚ)) / (allSections.length : ℚ)
    let centerY := (allSections.foldl (fun sum t => sum + t.y) (0 : ℚ)) / (allSections.length : ℚ)
    let dx := s.x - centerX
    let dy := s.y - centerY
    if ratAbs dx < 50 ∧ ratAbs dy < 50 then "center of venue"
    else
      String.intercalate ", "
        ((if ratAbs dy < 50 then [] else [if dy < 0 then "near side" else "far side"]) ++
         (if ratAbs dx < 50 then [] else [if dx < 0 then "left side" else "right side"]))

/-- The relative-position rule with the near-side descriptor as the code
actually spells it. -/
def describePositionAmended (s : SeatmapSection)
    (allSections : List SeatmapSection) : String :=
  if allSections.length = 0 then "position unknown"
  else
    let centerX := (allSections.foldl (fun sum t => sum + t.x) (0 : ℚ)) / (allSections.length : ℚ)
    let centerY := (allSections.foldl (fun sum t => sum + t.y) (0 : ℚ)) / (allSections.length : ℚ)
    let dx := s.x - centerX
    let dy := s.y - centerY
    if ratAbs dx < 50 ∧ ratAbs dy < 50 then "center of venue"
    else
      String.intercalate ", "
        ((if ratAbs dy < 50 then []
          else [if dy < 0 then "near side (closer to stage/court)" else "far side"]) ++
         (if ratAbs dx < 50 then [] else [if dx < 0 then "left side" else "right side"]))

/-- C9 counterexample: at a section offset (-100,-100) from the
centroid, the code returns the vertical descriptor
"near side (closer to stage/court)", not the bare "near side" the
claim specifies, so the two descriptions differ. -/
theorem describePosition_claim_counterexample :
    describePosition ⟨"", "S", -100, -100⟩
        [⟨"", "A", 100, 100⟩, ⟨"", "B", -100, -100⟩] =
      "near side (closer to stage/court), left side" ∧
    describePositionClaimed ⟨"", "S", -100, -100⟩
        [⟨"", "A", 100, 100⟩, ⟨"", "B", -100, -100⟩] =
      "near side, left side" ∧
    describePosition ⟨"", "S", -100, -100⟩
        [⟨"", "A", 100, 100⟩, ⟨"", "B", -100, -100⟩] ≠
      describePositionClaimed ⟨"", "S", -100, -100⟩
        [⟨"", "A", 100, 100⟩, ⟨"", "B", -100, -100⟩] :=
  ⟨by decide, by decide, by decide⟩

/-- C9 (amended): `describePosition` computes the arithmetic-mean
centroid, takes the signed offsets, and returns "position unknown" on an
empty list, "center of venue" when both offsets are within 50 units, and
otherwise the vertical then horizontal non-centered descriptors joined
by a comma — with the vertical near descriptor spelled
"near side (closer to stage/court)". -/
theorem describePosition_eq_amended (s : SeatmapSection)
    (allSections : List SeatmapSection) :
    describePosition s allSections = describePositionAmended s allSections := by
  unfold describePosition describePositionAmended
  by_cases h0 : allSections.length = 0
  · simp [h0]
  · simp only [h0, if_false]
    by_cases hdx : ratAbs (s.x - (allSections.foldl (fun sum t => sum + t.x) (0 : ℚ)) / (allSections.length : ℚ)) < 50 <;>
      by_cases hdy : ratAbs (s.y - (allSections.foldl (fun sum t => sum + t.y) (0 : ℚ)) / (allSections.length : ℚ)) < 50 <;>
        by_cases hsx : s.x - (allSections.foldl (fun sum t => sum + t.x) (0 : ℚ)) / (allSections.length : ℚ) < 0 <;>
          by_cases hsy : s.y - (allSections.foldl (fun sum t => sum + t.y) (0 : ℚ)) / (allSections.length : ℚ) < 0 <;>
            simp +decide [hdx, hdy, hsx, hsy]

-- ── Theorems: C2 ───────────────────────────────────────────────────────────

theorem trimRightL_eq_rdropWhile (cs : List Char) :
    trimRightL cs = List.rdropWhile jsWhitespaceCh cs := rfl

theorem dropWhile_rdropWhile_self {α : Type} {p : α → Bool} {l : List α}
    (h : List.dropWhile p l = l) :
    List.dropWhile p (List.rdropWhile p l) = List.rdropWhile p l := by
  rw [List.dropWhile_eq_self_iff] at h ⊢
  intro hl
  obtain ⟨t, ht⟩ := List.rdropWhile_prefix p l
  have hlen : 0 < l.length := by
    rw [← ht, List.length_append]
    omega
  have hx : 0 < (List.rdropWhile p l ++ t).length := by
    rw [ht]
    exact hlen
  have e1 : (List.rdropWhile p l ++ t).get ⟨0, hx⟩ =
      (List.rdropWhile p l).get ⟨0, hl⟩ := List.get_append 0 hl
  have e2 : (List.rdropWhile p l ++ t).get ⟨0, hx⟩ = l.get ⟨0, hlen⟩ :=
    List.get_of_eq ht ⟨0, hx⟩
  rw [e1.symm.trans e2]
  exact h hlen

theorem jsTrim_idem (s : String) : jsTrim (jsTrim s) = jsTrim s := by
  unfold jsTrim
  simp only [trimRightL_eq_rdropWhile]
  have h1 : (String.mk (List.rdropWhile jsWhitespaceCh
      (s.toList.dropWhile jsWhitespaceCh))).toList =
      List.rdropWhile jsWhitespaceCh (s.toList.dropWhile jsWhitespaceCh) := rfl
  rw [h1]
  rw [dropWhile_rdropWhile_self (List.dropWhile_idempotent _ _)]
  rw [List.rdropWhile_idempotent]

theorem isAlnumCh_not_whitespace (c : Char) (h : isAlnumCh c = true) :
    jsWhitespaceCh c = false := by
  simp only [isAlnumCh, isAsciiLetterCh, isDigitCh, Bool.or_eq_true,
    decide_eq_true_eq] at h
  simp only [jsWhitespaceCh, List.mem_cons, List.not_mem_nil, or_false,
    decide_eq_false_iff_not]
  omega

theorem isAlnumCh_ne_hyphen (c : Char) (h : isAlnumCh c = true) : c ≠ '-' := by
  intro hEq
  subst hEq
  exact absurd h (by decide)

theorem breakAtHyphen_eq_none (cs : List Char)
    (h : ∀ c ∈ cs, c ≠ '-') : breakAtHyphen cs = none := by
  induction cs with
  | nil => rfl
  | cons c rest ih =>
    unfold breakAtHyphen
    rw [if_neg (h c (by simp))]
    rw [ih fun d hd => h d (by simp [hd])]

theorem dropWhile_eq_self_of_all {α : Type} {p : α → Bool} {l : List α}
    (h : ∀ c ∈ l, p c = false) : List.dropWhile p l = l := by
  cases l with
  | nil => rfl
  | cons a rest =>
    rw [List.dropWhile_cons_of_neg]
    simp [h a (by simp)]

theorem jsTrim_of_all_not_ws (cs : List Char)
    (h : ∀ c ∈ cs, jsWhitespaceCh c = false) :
    jsTrim (String.mk cs) = String.mk cs := by
  unfold jsTrim
  simp only [trimRightL_eq_rdropWhile]
  have h1 : (String.mk cs).toList = cs := rfl
  rw [h1, dropWhile_eq_self_of_all h]
  congr 1
  unfold List.rdropWhile
  rw [dropWhile_eq_self_of_all fun c hc => h c (List.mem_reverse.mp hc)]
  exact List.reverse_reverse cs

theorem providerSuffix_inv (s : String) (b : String)
    (h : providerSuffix s = some b) :
    ∃ bl : List Char, b = String.mk bl ∧ 6 ≤ bl.length ∧
      (∀ c ∈ bl, isAlnumCh c = true) := by
  unfold providerSuffix at h
  cases hbk : breakAtHyphen s.toList with
  | none => rw [hbk] at h; cases h
  | some ab =>
    obtain ⟨a, bl⟩ := ab
    simp only [hbk] at h
    by_cases hcond : 5 ≤ a.length ∧ a.all isAsciiLetterCh ∧ 6 ≤ bl.length ∧
        bl.all isAlnumCh
    · rw [if_pos hcond] at h
      refine ⟨bl, (Option.some.injEq _ _).mp h |>.symm, hcond.2.2.1, ?_⟩
      intro c hc
      exact List.all_eq_true.mp hcond.2.2.2 c hc
    · rw [if_neg hcond] at h
      cases h

/-- Fully-alphanumeric strings are fixed points of the identifier
normalizer. -/
theorem normalizeExternalEventId_alnum_fixed (bl : List Char)
    (hlen : bl ≠ []) (hal : ∀ c ∈ bl, isAlnumCh c = true) :
    normalizeExternalEventId (String.mk bl) = String.mk bl := by
  unfold normalizeExternalEventId
  have hne : String.mk bl ≠ "" := by
    intro hEq
    apply hlen
    exact congrArg String.data hEq
  rw [if_neg hne]
  have htrim : jsTrim (String.mk bl) = String.mk bl :=
    jsTrim_of_all_not_ws bl fun c hc => isAlnumCh_not_whitespace c (hal c hc)
  rw [htrim]
  have hbk : breakAtHyphen (String.mk bl).toList = none :=
    breakAtHyphen_eq_none bl fun c hc => isAlnumCh_ne_hyphen c (hal c hc)
  simp only [providerSuffix, hbk]

/-- C2: identifier normalization is idempotent, and both the
provider-prefixed and the bare concrete forms normalize to the bare
identifier. -/
theorem normalizeExternalEventId_idempotent :
    (∀ s : String, normalizeExternalEventId (normalizeExternalEventId s) =
      normalizeExternalEventId s) ∧
    normalizeExternalEventId "provider-36PB9ZN" = "36PB9ZN" ∧
    normalizeExternalEventId "36PB9ZN" = "36PB9ZN" := by
  refine ⟨?_, by decide, by decide⟩
  intro s
  by_cases h0 : s = ""
  · simp [h0, normalizeExternalEventId]
  · cases hm : providerSuffix (jsTrim s) with
    | some b =>
      have h1 : normalizeExternalEventId s = b := by
        unfold normalizeExternalEventId
        rw [if_neg h0]
        simp only [hm]
      rw [h1]
      obtain ⟨bl, rfl, hlen, hal⟩ := providerSuffix_inv (jsTrim s) b hm
      refine normalizeExternalEventId_alnum_fixed bl ?_ hal
      intro hnil
      rw [hnil] at hlen
      simp at hlen
    | none =>
      have h1 : normalizeExternalEventId s = jsTrim s := by
        unfold normalizeExternalEventId
        rw [if_neg h0]
        simp only [hm]
      rw [h1]
      by_cases ht0 : jsTrim s = ""
      · rw [ht0]
        simp [normalizeExternalEventId]
      · unfold normalizeExternalEventId
        rw [if_neg ht0, jsTrim_idem]
        simp only [hm]

-- ── Theorems: C3 ───────────────────────────────────────────────────────────

/-- The commercial/placement keys `normalizeListing` reads from the
attribute level. -/
def listingCommercialKeys : List String :=
  ["price_per_ticket", "price", "quantity", "available_quantity",
   "quantities_list", "section", "row", "seat_numbers", "listing_hash",
   "notes", "delivery_method", "delivery_type", "splits"]

theorem jLookup_not_mem (fs : List (String × Json)) (key : String)
    (h : key ∉ fs.map Prod.fst) : jLookup fs key = none := by
  induction fs with
  | nil => rfl
  | cons p rest ih =>
    obtain ⟨k, v⟩ := p
    unfold jLookup
    rw [if_neg]
    · exact ih (fun hm => h (by simp [hm]))
    · intro hEq
      subst hEq
      exact h (by simp)

/-- C3: normalizing a flat record and the same commercial/placement
fields nested under `attributes` yields identical listings in every
field except the preserved `raw`. -/
theorem normalizeListing_shape_agnostic (idv : Json) (fs : List (String × Json))
    (hkeys : ∀ k ∈ fs.map Prod.fst, k ∈ listingCommercialKeys) :
    (normalizeListing (.obj (("id", idv) :: fs))).map
        (fun l => { l with raw := Json.null }) =
      (normalizeListing (.obj [("id", idv), ("attributes", .obj fs)])).map
        (fun l => { l with raw := Json.null }) := by
  have hattrs : jLookup fs "attributes" = none := by
    apply jLookup_not_mem
    intro hmem
    exact absurd (hkeys _ hmem) (by decide)
  have hid : jLookup fs "id" = none := by
    apply jLookup_not_mem
    intro hmem
    exact absurd (hkeys _ hmem) (by decide)
  have hcomm : ∀ k, k ∈ listingCommercialKeys →
      jLookup (("id", idv) :: fs) k = jLookup fs k := by
    intro k hk
    show (if "id" = k then some idv else jLookup fs k) = jLookup fs k
    rw [if_neg]
    intro hEq
    subst hEq
    exact absurd hk (by decide)
  have hidflat : jLookup (("id", idv) :: fs) "id" = some idv := by
    show (if "id" = "id" then some idv else jLookup fs "id") = some idv
    rw [if_pos rfl]
  have hattrsflat : jLookup (("id", idv) :: fs) "attributes" = none := by
    show (if "id" = "attributes" then some idv else jLookup fs "attributes") = none
    rw [if_neg (by decide), hattrs]
  have hidnested : jLookup [("id", idv), ("attributes", Json.obj fs)] "id" =
      some idv := rfl
  have hattrsnested : jLookup [("id", idv), ("attributes", Json.obj fs)]
      "attributes" = some (Json.obj fs) := rfl
  have c1 := hcomm "price_per_ticket" (by decide)
  have c2 := hcomm "price" (by decide)
  have c3 := hcomm "quantity" (by decide)
  have c4 := hcomm "available_quantity" (by decide)
  have c5 := hcomm "quantities_list" (by decide)
  have c6 := hcomm "section" (by decide)
  have c7 := hcomm "row" (by decide)
  have c8 := hcomm "seat_numbers" (by decide)
  have c9 := hcomm "listing_hash" (by decide)
  have c10 := hcomm "notes" (by decide)
  have c11 := hcomm "delivery_method" (by decide)
  have c12 := hcomm "delivery_type" (by decide)
  have c13 := hcomm "splits" (by decide)
  unfold normalizeListing
  simp only [Json.get, hattrsflat, hidflat, hidnested, hattrsnested, hid, hattrs,
    c1, c2, c3, c4, c5, c6, c7, c8, c9, c10, c11, c12, c13]
  cases hsi : str (some idv) <;>
    simp [Except.map, hsi, hid, Option.orElse, str]

/-- C3 witness: the concrete flat and nested listings from the claim
normalize identically apart from `raw`. -/
theorem normalizeListing_shape_agnostic_witness :
    (normalizeListing (.obj [("id", .str "x"), ("price_per_ticket", .num 10),
        ("quantity", .num 2)])).map (fun l => { l with raw := Json.null }) =
      (normalizeListing (.obj [("id", .str "x"), ("attributes",
        .obj [("price_per_ticket", .num 10), ("quantity", .num 2)])])).map
        (fun l => { l with raw := Json.null }) :=
  normalizeListing_shape_agnostic (.str "x")
    [("price_per_ticket", .num 10), ("quantity", .num 2)] (by decide)

-- ── Theorems: C6 ───────────────────────────────────────────────────────────

/-- C6: for every successfully parsed seatmap section, the representative
coordinates come from the first label whose text case-insensitively
equals the section name, else from the first label in document order,
else default to (0,0) when no label candidates exist. -/
theorem parseSection_label_selection (s : Json) (sec : SeatmapSectionJ)
    (h : parseSection s = .ok sec) :
    (sec.labels = [] → sec.x = 0 ∧ sec.y = 0) ∧
    (sec.labels ≠ [] → ∃ nm : String, sec.name = some (.str nm) ∧
      (∀ l, sec.labels.find?
          (fun l' => jsToUpper l'.text = jsToUpper nm) = some l →
          sec.x = l.x ∧ sec.y = l.y) ∧
      (sec.labels.find? (fun l' => jsToUpper l'.text = jsToUpper nm) = none →
        ∃ l0, sec.labels.head? = some l0 ∧ sec.x = l0.x ∧ sec.y = l0.y)) := by
  unfold parseSection at h
  split at h
  · cases h
  · split at h
    · injection h with h
      subst h
      constructor
      · intro
        exact ⟨rfl, rfl⟩
      · intro hne
        exact absurd rfl hne
    · rename_i l0 rest nm hlab hnm
      injection h with h
      subst h
      constructor
      · intro habs
        cases habs
      · intro
        refine ⟨nm, rfl, ?_, ?_⟩
        · intro l hf
          simp [hf]
        · intro hf
          simp [hf]
    · cases h

/-- The section fixture from the repository's seatmap test. -/
def section204Json : Json :=
  .obj [("id", .str "80850"), ("name", .str "204"),
    ("labels", .arr [
      .obj [("text", .str "Other"), ("x", .num 1), ("y", .num 1)],
      .obj [("text", .str "204"), ("x", .num 134.5), ("y", .num 302.6),
        ("size", .num 19.9), ("angle", .num 0)]]),
    ("shape", .obj [("path", .str "M127,244.8L200,300Z")])]

/-- The parse of `section204Json`. -/
def section204 : SeatmapSectionJ :=
  ⟨some (.str "80850"), some (.str "204"), 134.5, 302.6,
   [⟨"Other", 1, 1, none, none⟩, ⟨"204", 134.5, 302.6, some 19.9, some 0⟩],
   some "M127,244.8L200,300Z"⟩

/-- C6 witness: the test fixture section parses with the matching "204"
label as representative, and the selection rule instantiates to it. -/
theorem parseSection_label_selection_witness :
    (section204.labels = [] → section204.x = 0 ∧ section204.y = 0) ∧
    (section204.labels ≠ [] → ∃ nm : String,
      section204.name = some (.str nm) ∧
      (∀ l, section204.labels.find?
          (fun l' => jsToUpper l'.text = jsToUpper nm) = some l →
          section204.x = l.x ∧ section204.y = l.y) ∧
      (section204.labels.find?
          (fun l' => jsToUpper l'.text = jsToUpper nm) = none →
        ∃ l0, section204.labels.head? = some l0 ∧ section204.x = l0.x ∧
          section204.y = l0.y)) :=
  parseSection_label_selection section204Json section204 (by rfl)

-- ── Theorems: C1 ───────────────────────────────────────────────────────────

theorem exceptMap_isOk {e : Except Unit String} {β : Type}
    (f : String → β) (h : e.isOk = true) : (e.map f).isOk = true := by
  cases e with
  | error u => simp [Except.isOk, Except.toBool] at h
  | ok v => rfl

/-- C1 counterexample: the claim includes `null` among the JSON shapes
the normalizers accept, but JavaScript property access on `null` throws,
so both normalizers raise on a `null` record. -/
theorem normalizers_raise_on_null :
    normalizeEvent Json.null = .error () ∧
      normalizeListing Json.null = .error () :=
  ⟨rfl, rfl⟩

/-- C1 (amended): on every JSON value other than `null` — and, for
events, whenever date resolution does not throw on an out-of-range
numeric epoch — the normalizers return a canonical record; a fully
mistyped input yields the typed defaults (with the listing preserving
the input in `raw`). -/
theorem normalizers_total_on_nonnull :
    (∀ j : Json, j ≠ .null → (resolveDate j).isOk = true →
      (normalizeEvent j).isOk = true) ∧
    (∀ j : Json, j ≠ .null → (normalizeListing j).isOk = true) ∧
    normalizeEvent (Json.num 3) =
      .ok ⟨"", "", "", "", "", none, none, none, none, none, none, false,
        ⟨0, 0, 0⟩⟩ ∧
    normalizeListing (Json.num 3) =
      .ok ⟨"", 0, 0, [], none, none, none, "", none, none, [], .num 3⟩ := by
  refine ⟨?_, ?_, by rfl, by rfl⟩
  · intro j hne hok
    cases j
    case null => exact absurd rfl hne
    all_goals
      simp only [normalizeEvent]
      exact exceptMap_isOk _ hok
  · intro j hne
    cases j
    case null => exact absurd rfl hne
    all_goals rfl

/-- C1 witness: a plain string input normalizes without error on both
paths. -/
theorem normalizers_total_on_nonnull_witness :
    (normalizeEvent (Json.str "hello")).isOk = true ∧
      (normalizeListing (Json.str "hello")).isOk = true :=
  ⟨normalizers_total_on_nonnull.1 (Json.str "hello")
      (fun h => Json.noConfusion h) (by rfl),
    normalizers_total_on_nonnull.2.1 (Json.str "hello")
      (fun h => Json.noConfusion h)⟩

-- ── Theorems: C10 ──────────────────────────────────────────────────────────

/-- The event-record keys read exclusively through the `str` coercion. -/
def eventStrKeys : List String :=
  ["external_event_id", "externalEventId", "id", "slug", "name", "performer",
   "venue_name", "venueName", "venue_city", "venueCity", "venue_state",
   "venueState", "image_url", "imageUrl", "category_name", "categoryName",
   "category_event_type", "categoryEventType"]

/-- The listing-record keys read exclusively through the `str` coercion. -/
def listingStrKeys : List String :=
  ["id", "section", "row", "seat_numbers", "listing_hash", "notes",
   "delivery_method", "delivery_type"]

theorem str_jLookup_empty (k : String) (e : List (String × Json))
    (hk : k ∉ e.map Prod.fst) :
    ∀ k', str (jLookup ((k, Json.str "") :: e) k') = str (jLookup e k') := by
  intro k'
  by_cases h : k = k'
  · subst h
    show str (if k = k then some (.str "") else jLookup e k) = _
    rw [if_pos rfl, jLookup_not_mem e k hk]
    rfl
  · show str (if k = k' then some (.str "") else jLookup e k') = _
    rw [if_neg h]

theorem jLookup_cons_ne (k : String) (v : Json) (e : List (String × Json))
    (k' : String) (h : k ≠ k') :
    jLookup ((k, v) :: e) k' = jLookup e k' := by
  show (if k = k' then some v else jLookup e k') = _
  rw [if_neg h]

theorem normalizeEvent_empty_str_as_absent (e : List (String × Json))
    (k : String) (hmem : k ∈ eventStrKeys) (hk : k ∉ e.map Prod.fst) :
    normalizeEvent (.obj ((k, .str "") :: e)) = normalizeEvent (.obj e) := by
  have h1 := str_jLookup_empty k e hk
  have hd : jLookup ((k, Json.str "") :: e) "date" = jLookup e "date" :=
    jLookup_cons_ne k _ e "date" (by rintro rfl; exact absurd hmem (by decide))
  have hdm : jLookup ((k, Json.str "") :: e) "date_ms" = jLookup e "date_ms" :=
    jLookup_cons_ne k _ e "date_ms" (by rintro rfl; exact absurd hmem (by decide))
  have hhl : jLookup ((k, Json.str "") :: e) "has_listings" =
      jLookup e "has_listings" :=
    jLookup_cons_ne k _ e "has_listings"
      (by rintro rfl; exact absurd hmem (by decide))
  have hinv : jLookup ((k, Json.str "") :: e) "inventory" =
      jLookup e "inventory" :=
    jLookup_cons_ne k _ e "inventory"
      (by rintro rfl; exact absurd hmem (by decide))
  simp only [normalizeEvent, resolveDate, resolveDateMs, Json.get,
    h1, hd, hdm, hhl, hinv]

theorem normalizeListing_empty_str_as_absent (e : List (String × Json))
    (k : String) (hmem : k ∈ listingStrKeys) (hk : k ∉ e.map Prod.fst) :
    (normalizeListing (.obj ((k, .str "") :: e))).map
        (fun l => { l with raw := Json.null }) =
      (normalizeListing (.obj e)).map (fun l => { l with raw := Json.null }) := by
  have h1 := str_jLookup_empty k e hk
  have hne : ∀ key ∈ (["attributes", "price_per_ticket", "price", "quantity",
      "available_quantity", "quantities_list", "splits"] : List String),
      jLookup ((k, Json.str "") :: e) key = jLookup e key := by
    intro key hkey
    apply jLookup_cons_ne
    intro hEq
    subst hEq
    fin_cases hmem <;> simp at hkey
  have ha := hne "attributes" (by decide)
  have hppt := hne "price_per_ticket" (by decide)
  have hpr := hne "price" (by decide)
  have hq := hne "quantity" (by decide)
  have haq := hne "available_quantity" (by decide)
  have hql := hne "quantities_list" (by decide)
  have hsp := hne "splits" (by decide)
  simp only [normalizeListing, Json.get, h1, ha, hppt, hpr, hq, haq, hql, hsp]
  cases hA : jLookup e "attributes" with
  | none =>
    simp only [Json.get, h1, hppt, hpr, hq, haq, hql, hsp, Except.map]
  | some a =>
    cases a <;>
      simp only [Json.get, h1, hppt, hpr, hq, haq, hql, hsp, Except.map]

/-- C10: the `str` coercion maps the empty string to the absent marker,
so any `str`-coerced field that is present but `""` normalizes exactly
as if it were missing; concretely an event with slug `""` falls back to
the normalized identifier, a venue_name `""` becomes `null`, and a
listing with `""` ids at both levels gets id `""`. -/
theorem empty_string_treated_as_absent :
    (∀ (e : List (String × Json)) (k : String), k ∈ eventStrKeys →
      k ∉ e.map Prod.fst →
      normalizeEvent (.obj ((k, .str "") :: e)) = normalizeEvent (.obj e)) ∧
    (∀ (e : List (String × Json)) (k : String), k ∈ listingStrKeys →
      k ∉ e.map Prod.fst →
      (normalizeListing (.obj ((k, .str "") :: e))).map
          (fun l => { l with raw := Json.null }) =
        (normalizeListing (.obj e)).map
          (fun l => { l with raw := Json.null })) ∧
    (normalizeEvent (.obj [("slug", .str ""),
        ("external_event_id", .str "36PB9ZN")])).map (fun ev => ev.slug) =
      .ok "36PB9ZN" ∧
    (normalizeEvent (.obj [("venue_name", .str "")])).map
        (fun ev => ev.venue_name) = .ok none ∧
    (normalizeListing (.obj [("id", .str ""),
        ("attributes", .obj [("id", .str "")])])).map (fun l => l.id) =
      .ok "" :=
  ⟨fun e k h1 h2 => normalizeEvent_empty_str_as_absent e k h1 h2,
   fun e k h1 h2 => normalizeListing_empty_str_as_absent e k h1 h2,
   by rfl, by rfl, by rfl⟩

/-- C10 witness: dropping a slug that equals `""` leaves the normalized
event unchanged. -/
theorem empty_string_treated_as_absent_witness :
    normalizeEvent (.obj [("slug", .str ""),
        ("external_event_id", .str "36PB9ZN")]) =
      normalizeEvent (.obj [("external_event_id", .str "36PB9ZN")]) :=
  empty_string_treated_as_absent.1 [("external_event_id", .str "36PB9ZN")]
    "slug" (by decide) (by decide)

-- ── Theorems: C5 ───────────────────────────────────────────────────────────

/-- The date-resolution rule exactly as the claim words it: the
structured-object case demands month/day/year STRING fields. -/
def resolveDateClaimed (e : Json) : Except Unit String :=
  match e.get "date" with
  | some (.str s) => .ok s
  | some (.num q) => epochToIso q
  | some (.obj fs) =>
    match jLookup fs "month", jLookup fs "day", jLookup fs "year" with
    | some (.str m), some (.str d), some (.str y) =>
      .ok (m ++ " " ++ d ++ ", " ++ y)
    | _, _, _ => resolveDateMs e
  | _ => resolveDateMs e

/-- C5 counterexample: a date object whose month/day/year fields are
numbers rather than strings.  The claim routes it to the final
empty-string default, but the code only tests the three fields for
truthiness and renders "6 1, 2025". -/
theorem resolveDate_claim_counterexample :
    resolveDate (.obj [("date", .obj [("month", .num 6), ("day", .num 1),
        ("year", .num 2025)])]) = .ok "6 1, 2025" ∧
    resolveDateClaimed (.obj [("date", .obj [("month", .num 6),
        ("day", .num 1), ("year", .num 2025)])]) = .ok "" ∧
    resolveDate (.obj [("date", .obj [("month", .num 6), ("day", .num 1),
        ("year", .num 2025)])]) ≠
      resolveDateClaimed (.obj [("date", .obj [("month", .num 6),
        ("day", .num 1), ("year", .num 2025)])]) := by
  refine ⟨by rfl, by rfl, ?_⟩
  intro h
  rw [show resolveDate (.obj [("date", .obj [("month", .num 6),
      ("day", .num 1), ("year", .num 2025)])]) = .ok "6 1, 2025" from rfl,
    show resolveDateClaimed (.obj [("date", .obj [("month", .num 6),
      ("day", .num 1), ("year", .num 2025)])]) = .ok "" from rfl] at h
  injection h with h
  exact absurd h (by decide)

/-- C5 (amended): the resolved date follows the code's priority order —
a string `date` verbatim; a numeric `date` through the epoch-to-ISO
conversion (which throws on an out-of-range value); an object `date`
whose month/day/year fields are all present and truthy rendered as
"<month> <day>, <year>" via JavaScript string conversion; otherwise the
`date_ms` fallback, which converts a numeric `date_ms` and defaults to
the empty string.  The claim's concrete instances evaluate accordingly. -/
theorem resolveDate_priority (e : Json) :
    (∀ s, e.get "date" = some (.str s) → resolveDate e = .ok s) ∧
    (∀ q, e.get "date" = some (.num q) → resolveDate e = epochToIso q) ∧
    (∀ fs, e.get "date" = some (.obj fs) →
      (jsTruthy (jLookup fs "month") = true ∧
          jsTruthy (jLookup fs "day") = true ∧
          jsTruthy (jLookup fs "year") = true →
        resolveDate e = .ok (jsToString ((jLookup fs "month").getD .null) ++
          " " ++ jsToString ((jLookup fs "day").getD .null) ++ ", " ++
          jsToString ((jLookup fs "year").getD .null))) ∧
      (¬ (jsTruthy (jLookup fs "month") = true ∧
          jsTruthy (jLookup fs "day") = true ∧
          jsTruthy (jLookup fs "year") = true) →
        resolveDate e = resolveDateMs e)) ∧
    ((e.get "date" = none ∨ e.get "date" = some .null ∨
        (∃ b, e.get "date" = some (.bool b)) ∨
        (∃ xs, e.get "date" = some (.arr xs))) →
      resolveDate e = resolveDateMs e) ∧
    (∀ q, e.get "date_ms" = some (.num q) → resolveDateMs e = epochToIso q) ∧
    ((∀ q, e.get "date_ms" ≠ some (.num q)) → resolveDateMs e = .ok "") ∧
    resolveDate (.obj [("date", .str "2026-03-16T19:00:00.000Z")]) =
      .ok "2026-03-16T19:00:00.000Z" ∧
    resolveDate (.obj [("date", .obj [("month", .str "June"),
        ("day", .str "1"), ("year", .str "2025")])]) = .ok "June 1, 2025" ∧
    resolveDate (.obj [("date", .num 1700000000000)]) =
      .ok "2023-11-14T22:13:20.000Z" ∧
    resolveDate (.obj []) = .ok "" := by
  refine ⟨?_, ?_, ?_, ?_, ?_, ?_, by rfl, by rfl, by rfl, by rfl⟩
  · intro s hs
    simp only [resolveDate, hs]
  · intro q hq
    simp only [resolveDate, hq]
  · intro fs hfs
    constructor
    · intro ht
      simp only [resolveDate, hfs, if_pos ht]
    · intro ht
      simp only [resolveDate, hfs, if_neg ht]
  · intro hcase
    rcases hcase with h | h | ⟨b, h⟩ | ⟨xs, h⟩ <;> simp only [resolveDate, h]
  · intro q hq
    simp only [resolveDateMs, hq]
  · intro hq
    unfold resolveDateMs
    cases hd : e.get "date_ms" with
    | none => rfl
    | some v =>
      cases v with
      | num q => exact absurd hd (hq q)
      | null => rfl
      | bool b => rfl
      | str s => rfl
      | arr xs => rfl
      | obj fs => rfl

/-- C5 witness: the structured June date satisfies the truthy-fields
hypothesis and renders as "June 1, 2025". -/
theorem resolveDate_priority_witness :
    resolveDate (.obj [("date", .obj [("month", .str "June"),
        ("day", .str "1"), ("year", .str "2025")])]) =
      .ok (jsToString ((jLookup [("month", Json.str "June"),
          ("day", Json.str "1"), ("year", Json.str "2025")]
          "month").getD .null) ++ " " ++
        jsToString ((jLookup [("month", Json.str "June"),
          ("day", Json.str "1"), ("year", Json.str "2025")]
          "day").getD .null) ++ ", " ++
        jsToString ((jLookup [("month", Json.str "June"),
          ("day", Json.str "1"), ("year", Json.str "2025")]
          "year").getD .null)) :=
  ((resolveDate_priority (.obj [("date", .obj [("month", .str "June"),
      ("day", .str "1"), ("year", .str "2025")])])).2.2.1
    [("month", Json.str "June"), ("day", Json.str "1"),
      ("year", Json.str "2025")] rfl).1 ⟨rfl, rfl, rfl⟩
